import Mathlib

/-!
Verification of the Minetrack time-series persistence layer and client
synchronization code: a shallow embedding of the two `Database` backends
(document-oriented / MongoDB and tabular / MySQL) and of the client
`SocketManager`, with theorems settling the specification claims.
-/

/-! ## Client socket manager (src/assets/js/socket.js) -/

/-- State of the client `SocketManager`: the one-shot history-graph request
flag and the reconnect backoff counter (`_hasRequestedHistoryGraph`,
`_reconnectDelayBase` in the constructor). -/
structure SocketManagerState where
  hasRequestedHistoryGraph : Bool
  reconnectDelayBase : Nat
deriving DecidableEq, Repr

/-- Constructor state: flag false, counter 0. -/
def initialSocketState : SocketManagerState :=
  { hasRequestedHistoryGraph := false, reconnectDelayBase := 0 }

/-- Model of `SocketManager.reset()`: clears only the history-graph request flag.
Invoked from `App.handleDisconnect`, which runs in the WebSocket `onclose`
handler. -/
def socketReset (s : SocketManagerState) : SocketManagerState :=
  { s with hasRequestedHistoryGraph := false }

/-- The `onopen` handler: resets the reconnect backoff counter to 0 on a
successful connection. -/
def handleSocketOpen (s : SocketManagerState) : SocketManagerState :=
  { s with reconnectDelayBase := 0 }

/-- Model of `SocketManager.scheduleReconnect()`: increments `_reconnectDelayBase`
and computes `_reconnectDelaySeconds = Math.min(base * base, 30)`. Returns
the new state and the delay in seconds. -/
def scheduleReconnect (s : SocketManagerState) : SocketManagerState × Nat :=
  let b := s.reconnectDelayBase + 1
  ({ s with reconnectDelayBase := b }, min (b * b) 30)

/-- Model of `SocketManager.sendHistoryGraphRequest()`: sends the request token only
when the flag is unset, and sets the flag. Returns the new state and whether
the message was actually sent on the channel. -/
def sendHistoryGraphRequest (s : SocketManagerState) : SocketManagerState × Bool :=
  if s.hasRequestedHistoryGraph then (s, false)
  else ({ s with hasRequestedHistoryGraph := true }, true)

/-- Delays produced by `n` consecutive `scheduleReconnect` calls (consecutive
failed connection attempts, no intervening successful `onopen`). -/
def consecutiveDelays (s : SocketManagerState) : Nat → List Nat
  | 0 => []
  | n + 1 =>
    let (s', d) := scheduleReconnect s
    d :: consecutiveDelays s' n

/-- Number of messages actually sent by `k` consecutive
`sendHistoryGraphRequest` invocations (no intervening reset). -/
def sendsIn (s : SocketManagerState) : Nat → Nat
  | 0 => 0
  | k + 1 =>
    let (s', sent) := sendHistoryGraphRequest s
    (if sent then 1 else 0) + sendsIn s' k

lemma scheduleReconnect_state (s : SocketManagerState) :
    (scheduleReconnect s).1 = { s with reconnectDelayBase := s.reconnectDelayBase + 1 } := rfl

lemma consecutiveDelays_formula (h : Bool) (b : Nat) : ∀ n : Nat,
    consecutiveDelays ⟨h, b⟩ n =
      (List.range n).map (fun k => min ((b + k + 1) * (b + k + 1)) 30) := by
  intro n
  induction n generalizing b with
  | zero => rfl
  | succ m ih =>
    rw [List.range_succ_eq_map]
    simp only [consecutiveDelays, scheduleReconnect, List.map_cons, List.map_map]
    congr 1
    rw [ih (b + 1)]
    apply List.map_congr_left
    intro k _
    simp only [Function.comp, Nat.succ_eq_add_one]
    ring_nf

/-- C7: starting from a reset counter (a successful connection resets it to
0), the delays of consecutive failed attempts are min(n², 30) seconds for the
n-th attempt: 1, 4, 9, 16, 25, 30, 30, 30, …. -/
theorem c7_reconnect_backoff_sequence :
    (∀ (s : SocketManagerState) (n : Nat),
      consecutiveDelays (handleSocketOpen s) n =
        (List.range n).map (fun k => min ((k + 1) * (k + 1)) 30)) ∧
    consecutiveDelays initialSocketState 8 = [1, 4, 9, 16, 25, 30, 30, 30] := by
  constructor
  · intro s n
    show consecutiveDelays ⟨s.hasRequestedHistoryGraph, 0⟩ n = _
    rw [consecutiveDelays_formula]
    simp
  · rfl

lemma sendsIn_flag_set (b : Nat) : ∀ k : Nat, sendsIn ⟨true, b⟩ k = 0 := by
  intro k
  induction k with
  | zero => rfl
  | succ m ih => simpa [sendsIn, sendHistoryGraphRequest] using ih

/-- C8: within one connection lifetime (no intervening reset) the client
sends the history-graph request at most once however often
`sendHistoryGraphRequest` is invoked, and after a reset (performed during the
disconnect/reconnect transition) any positive number of invocations sends
exactly one further request. -/
theorem c8_history_graph_request_once :
    (∀ (s : SocketManagerState) (k : Nat), sendsIn s k ≤ 1) ∧
    (∀ (s : SocketManagerState) (k : Nat), sendsIn (socketReset s) (k + 1) = 1) := by
  constructor
  · intro s k
    match s, k with
    | _, 0 => exact Nat.zero_le 1
    | ⟨true, b⟩, k + 1 =>
      rw [sendsIn_flag_set]
      exact Nat.zero_le 1
    | ⟨false, b⟩, k + 1 =>
      simp [sendsIn, sendHistoryGraphRequest, sendsIn_flag_set]
  · intro s k
    simp [socketReset, sendsIn, sendHistoryGraphRequest, sendsIn_flag_set]

/-! ## Store error model -/

/-- Abstract class of store errors: a duplicate-key conflict on a unique or
primary key (MySQL `ER_DUP_ENTRY`, Mongo `E11000`), a duplicate-column error
from `ALTER TABLE ... ADD COLUMN`, or any other backend error. -/
inductive DbErr where
  | dupKey
  | dupColumn
  | otherErr
deriving DecidableEq, Repr

/-! ## Record insertion error handling (both backends) -/

/-- MongoDB `Database.insertRecord` error path: the `catch` block logs and
then rethrows every error (`throw err`), so the outcome of the underlying
`insertOne` call is propagated unchanged. -/
def insertRecordMongoOutcome (e : Option DbErr) : Except DbErr Unit :=
  match e with
  | some err => .error err
  | none => .ok ()

/-- MySQL `Database.loadRecords` insert branch error path: the query callback
rethrows only when an error is present and its code differs from
`ER_DUP_ENTRY`, so a
duplicate-key error is swallowed and every other error is rethrown. -/
def insertRecordMysqlOutcome (e : Option DbErr) : Except DbErr Unit :=
  match e with
  | some err => if err = DbErr.dupKey then .ok () else .error err
  | none => .ok ()

/-- C3 counterexample: on the MongoDB backend a duplicate-key conflict raised
during `insertRecord` is rethrown to the caller, not swallowed, so the claim
that both backends swallow it is false. -/
theorem c3_counterexample_mongo_rethrows_dup_key :
    insertRecordMongoOutcome (some DbErr.dupKey) = Except.error DbErr.dupKey ∧
    insertRecordMysqlOutcome (some DbErr.dupKey) = Except.ok () := by
  exact ⟨rfl, rfl⟩

/-- C3 amended: only the record-insert branch of the MySQL backend swallows the
duplicate-key error class, and there it is the only swallowed class (all
other errors propagate); the MongoDB `insertRecord` propagates every error,
duplicate-key conflicts included. -/
theorem c3_record_insert_error_handling :
    (∀ e : DbErr, insertRecordMysqlOutcome (some e) =
      if e = DbErr.dupKey then Except.ok () else Except.error e) ∧
    (∀ e : DbErr, insertRecordMongoOutcome (some e) = Except.error e) ∧
    insertRecordMysqlOutcome none = Except.ok () ∧
    insertRecordMongoOutcome none = Except.ok () := by
  refine ⟨fun e => rfl, fun e => rfl, rfl, rfl⟩

/-! ## Retention pruner scheduling (`initOldPingsDelete`, both backends) -/

/-- The effective cleanup interval computed by
`config.oldPingsCleanup.interval || 3600000` in both backends: an absent
(undefined/null) configuration value and the value `0` are falsy in
JavaScript and yield the default 3,600,000 ms; any other number is used
as-is. -/
def effectiveCleanupInterval : Option Int → Int
  | none => 3600000
  | some v => if v = 0 then 3600000 else v

/-- The observable scheduling behaviour of `initOldPingsDelete`: the startup
prune pass always runs, and a repeating pass is scheduled (via `setInterval`)
exactly when the effective interval is strictly positive, at that interval. -/
structure CleanupPlan where
  startupPassRuns : Bool
  periodicInterval : Option Int
deriving DecidableEq, Repr

/-- Model of `Database.initOldPingsDelete` (identical scheduling logic on both
backends): run `deleteOldPings` once, then
`if (oldPingsCleanupInterval > 0) setInterval(..., oldPingsCleanupInterval)`. -/
def initOldPingsDelete (cfg : Option Int) : CleanupPlan :=
  let i := effectiveCleanupInterval cfg
  { startupPassRuns := true
    periodicInterval := if 0 < i then some i else none }

/-- C4 counterexample: with a configured interval of exactly 0 the claim says
no periodic pass is scheduled, but `0 || 3600000` evaluates to the default
3,600,000 ms, which is strictly positive, so a periodic pass is scheduled at
the default interval. -/
theorem c4_counterexample_zero_interval :
    (initOldPingsDelete (some 0)).periodicInterval = some 3600000 := by
  rfl

/-- C4 amended: a strictly positive configured interval i schedules the
repeating pass at i; a configured 0 and an absent configuration both fall
back to the default 3,600,000 ms and schedule the repeating pass at that
default; only a strictly negative interval disables periodic pruning; the
startup pass always runs. -/
theorem c4_cleanup_interval_scheduling :
    (∀ i : Int, 0 < i → initOldPingsDelete (some i) =
      { startupPassRuns := true, periodicInterval := some i }) ∧
    (∀ i : Int, i < 0 → initOldPingsDelete (some i) =
      { startupPassRuns := true, periodicInterval := none }) ∧
    initOldPingsDelete (some 0) =
      { startupPassRuns := true, periodicInterval := some 3600000 } ∧
    initOldPingsDelete none =
      { startupPassRuns := true, periodicInterval := some 3600000 } := by
  refine ⟨?_, ?_, rfl, rfl⟩
  · intro i hi
    have hne : ¬ i = 0 := by omega
    simp [initOldPingsDelete, effectiveCleanupInterval, hne, hi]
  · intro i hi
    have hne : ¬ i = 0 := by omega
    have hnpos : ¬ 0 < i := by omega
    simp [initOldPingsDelete, effectiveCleanupInterval, hne, hnpos]

/-- C4 witness: instantiating the amended theorem at i = 5000 and i = -1. -/
theorem c4_cleanup_interval_scheduling_witness :
    (initOldPingsDelete (some 5000) =
      { startupPassRuns := true, periodicInterval := some 5000 }) ∧
    (initOldPingsDelete (some (-1)) =
      { startupPassRuns := true, periodicInterval := none }) :=
  ⟨c4_cleanup_interval_scheduling.1 5000 (by decide),
   c4_cleanup_interval_scheduling.2.1 (-1) (by decide)⟩

/-! ## Samples and records (pings / players_record stores) -/

/-- One row of the `pings` store: `insertPing` writes
`{timestamp, ip, playerCount}`. -/
structure Sample where
  ip : String
  timestamp : Int
  playerCount : Int
deriving DecidableEq, Repr

/-- One row of the `players_record` store. `playerCount` and `timestamp` are
optional because the legacy-fallback branch of `loadRecords` inserts the
JavaScript `null` values when no legacy record exists. -/
structure RecordRow where
  ip : String
  playerCount : Option Int
  timestamp : Option Int
deriving DecidableEq, Repr

/-- The per-service display record assigned to
`serverRegistration.recordData` by `loadRecords`. -/
structure RecordData where
  playerCount : Option Int
  timestamp : Option Int
deriving DecidableEq, Repr

/-- Modelled from the spec: `TimeTracker.toSeconds` (the `TimeTracker`
module is not under src/); it normalizes an epoch-milliseconds timestamp to
seconds, and the explicit no-data null state is preserved as null. -/
def toSeconds (t : Option Int) : Option Int :=
  t.map (fun ms => ms / 1000)

/-- MongoDB `Database.getRecord(ip)`: `findOne({ ip })` on `players_record`
returns the first stored document matching the ip (no unique index is
created on `players_record`, so store order decides among duplicates). The
MySQL `getRecord` reads `data[0]` of `SELECT ... WHERE ip = ?`, the same
first-match semantics. -/
def getRecord (records : List RecordRow) (ip : String) : Option RecordRow :=
  records.find? (fun r => r.ip = ip)

/-- First sample with maximal `playerCount` in a list, scanning left to
right: the model of MongoDB `findOne(query, { sort: { playerCount: -1 } })`.
A later sample replaces the current best only when strictly greater, so ties
keep the earliest stored sample (the tie-break is backend-dependent; this is
one faithful realization of it). `betterSample` is its one-step helper. -/
def betterSample (a : Sample) : Option Sample → Sample
  | none => a
  | some t => if t.playerCount > a.playerCount then t else a

def maxByPlayerCount : List Sample → Option Sample
  | [] => none
  | s :: rest => some (betterSample s (maxByPlayerCount rest))

/-- MongoDB `Database.getRecordLegacy(ip)`: query `{ ip }` on `pings` sorted
by `playerCount` descending, returning the first document — a sample of that
ip with maximal playerCount. -/
def getRecordLegacyMongo (pings : List Sample) (ip : String) : Option Sample :=
  maxByPlayerCount (pings.filter (fun s => s.ip = ip))

/-- MySQL `Database.getRecordLegacy(ip)`: the query text is
`SELECT MAX(playerCount) as maxPlayerCount, timestamp FROM pings WHERE
ip = play.topstrix.net GROUP BY timestamp` — the WHERE clause uses the
hard-coded literal and ignores the `ip` parameter, and the callback reads
`data[0]`, i.e. the first `timestamp` group (group order is unspecified in
SQL; modelled as first-appearance order), not the global maximum. Returns
`(maxPlayerCount, timestamp)` of that first group, or none when no row
matches. -/
def getRecordLegacyMysql (pings : List Sample) (_ip : String) : Option (Int × Int) :=
  let rows := pings.filter (fun s => s.ip = "play.topstrix.net")
  match rows with
  | [] => none
  | r0 :: _ =>
    let grp := rows.filter (fun s => s.timestamp = r0.timestamp)
    some (grp.foldl (fun a s => max a s.playerCount) r0.playerCount, r0.timestamp)

/-- The C1 scenario: Samples (A,t=1000,v=5), (A,t=2000,v=9), (A,t=3000,v=3)
inserted for service A. -/
def c1ScenarioPings : List Sample :=
  [⟨"A", 1000, 5⟩, ⟨"A", 2000, 9⟩, ⟨"A", 3000, 3⟩]

/-- C1 evaluated at the scenario given by the claim: the MongoDB backend
returns the maximal sample v=9, t=2000 as claimed, but the MySQL
`getRecordLegacy` queries the hard-coded ip `play.topstrix.net` instead of
serviceId A, finds no row, and reports no record at all — contradicting the
claim for the MySQL backend. -/
theorem c1_legacy_record_scenario :
    getRecordLegacyMongo c1ScenarioPings "A" = some ⟨"A", 2000, 9⟩ ∧
    getRecordLegacyMysql c1ScenarioPings "A" = none := by
  exact ⟨rfl, rfl⟩

lemma betterSample_cases (a : Sample) (o : Option Sample) :
    betterSample a o = a ∨ ∃ t, o = some t ∧ betterSample a o = t := by
  cases o with
  | none => exact Or.inl rfl
  | some t =>
    by_cases hgt : t.playerCount > a.playerCount
    · exact Or.inr ⟨t, rfl, by simp [betterSample, hgt]⟩
    · exact Or.inl (by simp [betterSample, hgt])

lemma betterSample_ge_left (a : Sample) (o : Option Sample) :
    a.playerCount ≤ (betterSample a o).playerCount := by
  cases o with
  | none => exact le_refl _
  | some t =>
    by_cases hgt : t.playerCount > a.playerCount
    · simp only [betterSample, if_pos hgt]; omega
    · simp only [betterSample, if_neg hgt]; exact le_refl _

lemma betterSample_ge_right (a t : Sample) (o : Option Sample) (h : o = some t) :
    t.playerCount ≤ (betterSample a o).playerCount := by
  subst h
  by_cases hgt : t.playerCount > a.playerCount
  · simp only [betterSample, if_pos hgt]; exact le_refl _
  · simp only [betterSample, if_neg hgt]; omega

lemma maxByPlayerCount_mem : ∀ (l : List Sample) (s : Sample),
    maxByPlayerCount l = some s → s ∈ l := by
  intro l
  induction l with
  | nil => intro s h; cases h
  | cons a rest ih =>
    intro s h
    simp only [maxByPlayerCount, Option.some.injEq] at h
    rcases betterSample_cases a (maxByPlayerCount rest) with hc | ⟨t, hrec, hc⟩
    · rw [hc] at h; rw [← h]; exact List.mem_cons_self a rest
    · rw [hc] at h; rw [← h]; exact List.mem_cons_of_mem a (ih t hrec)

lemma maxByPlayerCount_ge : ∀ (l : List Sample) (s : Sample),
    maxByPlayerCount l = some s → ∀ t ∈ l, t.playerCount ≤ s.playerCount := by
  intro l
  induction l with
  | nil => intro s _ t ht; cases ht
  | cons a rest ih =>
    intro s h t ht
    simp only [maxByPlayerCount, Option.some.injEq] at h
    rcases List.mem_cons.mp ht with h1 | h2
    · subst h1
      rw [← h]
      exact betterSample_ge_left t (maxByPlayerCount rest)
    · cases hrec : maxByPlayerCount rest with
      | none =>
        exfalso
        cases rest with
        | nil => cases h2
        | cons b r2 => simp [maxByPlayerCount] at hrec
      | some u =>
        have hle := ih u hrec t h2
        have hge := betterSample_ge_right a u (maxByPlayerCount rest) hrec
        rw [h] at hge
        omega

lemma maxByPlayerCount_none : ∀ l : List Sample,
    maxByPlayerCount l = none → l = [] := by
  intro l h
  cases l with
  | nil => rfl
  | cons a rest => simp [maxByPlayerCount] at h

/-- On the MongoDB backend the legacy fallback does satisfy the claimed
contract: it returns a stored sample of the requested serviceId whose
playerCount is maximal among the samples of that service, and it returns none
only when the service has no samples. (Shared auxiliary result; C1 itself is
settled at the concrete scenario.) -/
theorem mongo_legacy_record_is_max (pings : List Sample) (ip : String) :
    (∀ s, getRecordLegacyMongo pings ip = some s →
      s ∈ pings ∧ s.ip = ip ∧
      ∀ t ∈ pings, t.ip = ip → t.playerCount ≤ s.playerCount) ∧
    (getRecordLegacyMongo pings ip = none →
      ∀ t ∈ pings, t.ip ≠ ip) := by
  constructor
  · intro s h
    have hmem := maxByPlayerCount_mem _ _ h
    have hip : s.ip = ip := by
      have := List.mem_filter.mp hmem
      exact decide_eq_true_eq.mp this.2
    refine ⟨(List.mem_filter.mp hmem).1, hip, ?_⟩
    intro t ht htip
    exact maxByPlayerCount_ge _ _ h t (List.mem_filter.mpr ⟨ht, by simp [htip]⟩)
  · intro h t ht htip
    have hempty := maxByPlayerCount_none _ h
    have : t ∈ pings.filter (fun s => s.ip = ip) :=
      List.mem_filter.mpr ⟨ht, by simp [htip]⟩
    rw [hempty] at this
    cases this

/-! ## Range queries (`getRecentPings` / `loadGraphPoints`, both backends) -/

/-- The MongoDB `getRecentPings` query document
`{ timestamp: { $gte: startTime, $lte: endTime } }`. -/
structure TimestampRangeQuery where
  gte : Int
  lte : Int
deriving DecidableEq, Repr

/-- Evaluation of the `$gte`/`$lte` range condition against one sample. -/
def matchesTimestampQuery (q : TimestampRangeQuery) (s : Sample) : Bool :=
  decide (q.gte ≤ s.timestamp) && decide (s.timestamp ≤ q.lte)

/-- MongoDB `Database.getRecentPings(startTime, endTime)`:
`find({ timestamp: { $gte: startTime, $lte: endTime } })` on `pings`. -/
def getRecentPingsMongo (pings : List Sample) (startTime endTime : Int) : List Sample :=
  pings.filter (matchesTimestampQuery ⟨startTime, endTime⟩)

/-- MySQL `Database.getRecentPings(startTime, endTime)`:
`SELECT * FROM pings WHERE timestamp >= ? AND timestamp <= ?`. -/
def getRecentPingsMysql (pings : List Sample) (startTime endTime : Int) : List Sample :=
  pings.filter (fun s => decide (s.timestamp ≥ startTime) && decide (s.timestamp ≤ endTime))

/-- Model of the `Database.loadGraphPoints(graphDuration)` window computation (both
backends): `endTime = now`, `startTime = endTime - graphDuration`, then
`getRecentPings(startTime, endTime)`. -/
def loadGraphPointsWindow (pings : List Sample) (now graphDuration : Int) : List Sample :=
  getRecentPingsMongo pings (now - graphDuration) now

/-- C9: for every startTime ≤ endTime, both backends' `getRecentPings`
return exactly the stored samples whose timestamp lies in the closed
interval [startTime, endTime] (inclusive at both bounds), and
`loadGraphPoints` with window D keeps exactly the samples with timestamp in
[now − D, now]. -/
theorem c9_query_range_inclusive (pings : List Sample) (startTime endTime now d : Int)
    (_hle : startTime ≤ endTime) :
    (∀ s : Sample, s ∈ getRecentPingsMongo pings startTime endTime ↔
      s ∈ pings ∧ startTime ≤ s.timestamp ∧ s.timestamp ≤ endTime) ∧
    (∀ s : Sample, s ∈ getRecentPingsMysql pings startTime endTime ↔
      s ∈ pings ∧ startTime ≤ s.timestamp ∧ s.timestamp ≤ endTime) ∧
    (∀ s : Sample, s ∈ loadGraphPointsWindow pings now d ↔
      s ∈ pings ∧ now - d ≤ s.timestamp ∧ s.timestamp ≤ now) := by
  refine ⟨?_, ?_, ?_⟩
  · intro s
    simp [getRecentPingsMongo, matchesTimestampQuery, List.mem_filter, and_assoc]
  · intro s
    simp [getRecentPingsMysql, List.mem_filter, and_assoc]
  · intro s
    simp [loadGraphPointsWindow, getRecentPingsMongo, matchesTimestampQuery,
      List.mem_filter, and_assoc]

/-- C9 witness: the theorem applied at a concrete store and window, at
start 1000 ≤ end 3000: the sample at 1000 (lower bound) and 3000 (upper
bound) are included, the one at 3500 excluded. -/
theorem c9_query_range_inclusive_witness :
    ((1000 : Int) ≤ 3000) ∧
    ((⟨"A", 1000, 5⟩ : Sample) ∈ getRecentPingsMongo
      [⟨"A", 1000, 5⟩, ⟨"A", 3000, 9⟩, ⟨"A", 3500, 2⟩] 1000 3000 ∧
     (⟨"A", 3000, 9⟩ : Sample) ∈ getRecentPingsMysql
      [⟨"A", 1000, 5⟩, ⟨"A", 3000, 9⟩, ⟨"A", 3500, 2⟩] 1000 3000 ∧
     ¬ (⟨"A", 3500, 2⟩ : Sample) ∈ loadGraphPointsWindow
      [⟨"A", 1000, 5⟩, ⟨"A", 3000, 9⟩, ⟨"A", 3500, 2⟩] 3000 2000) := by
  refine ⟨by decide, ?_, ?_, ?_⟩
  · exact ((c9_query_range_inclusive
      [⟨"A", 1000, 5⟩, ⟨"A", 3000, 9⟩, ⟨"A", 3500, 2⟩] 1000 3000 3000 2000
      (by decide)).1 ⟨"A", 1000, 5⟩).mpr (by constructor <;> simp)
  · exact ((c9_query_range_inclusive
      [⟨"A", 1000, 5⟩, ⟨"A", 3000, 9⟩, ⟨"A", 3500, 2⟩] 1000 3000 3000 2000
      (by decide)).2.1 ⟨"A", 3000, 9⟩).mpr (by constructor <;> simp)
  · intro hmem
    have h := ((c9_query_range_inclusive
      [⟨"A", 1000, 5⟩, ⟨"A", 3000, 9⟩, ⟨"A", 3500, 2⟩] 1000 3000 3000 2000
      (by decide)).2.2 ⟨"A", 3500, 2⟩).mp hmem
    exact absurd h.2.2 (by decide)

/-! ## Record-refresh cycle (`loadRecords`, both backends) -/

/-- State threaded through one `loadRecords` cycle: the `players_record`
store, the per-service `recordData` assignments made so far (in processing
order), the `completedTasks` counter, and whether the completion callback
has fired. -/
structure LoadState where
  records : List RecordRow
  assignments : List (String × RecordData)
  completedTasks : Nat
  callbackFired : Bool
deriving DecidableEq, Repr

/-- Start of a cycle: `let completedTasks = 0`, no callback fired yet, no
assignments made. -/
def initLoadState (records : List RecordRow) : LoadState :=
  { records := records, assignments := [], completedTasks := 0, callbackFired := false }

/-- One service of the MongoDB `loadRecords` loop body (the part after a
successful `getRecord`): if a record exists, assign `recordData` from it;
otherwise query the legacy fallback, assign `recordData` from it (nulls when
absent), and then unconditionally `insertRecord(ip, newPlayerCount,
newTimestamp)` — the insert is not guarded on the fallback having found
anything. -/
def processServiceMongo (pings : List Sample) (ip : String) (st : LoadState) : LoadState :=
  match getRecord st.records ip with
  | some r =>
    { st with assignments :=
        st.assignments ++ [(ip, ⟨r.playerCount, toSeconds r.timestamp⟩)] }
  | none =>
    let legacy := getRecordLegacyMongo pings ip
    let newPlayerCount := legacy.map (fun s => s.playerCount)
    let newTimestamp := legacy.map (fun s => s.timestamp)
    { st with
      assignments :=
        st.assignments ++ [(ip, ⟨newPlayerCount, toSeconds newTimestamp⟩)]
      records := st.records ++ [⟨ip, newPlayerCount, newTimestamp⟩] }

/-- MongoDB `Database.loadRecords`: iterate the tracked services in order;
`readErr` injects the outcome of the store read for each service (a failing
`getRecord` throws out of the loop, retaining all state mutated so far);
after each successfully processed service `completedTasks` is incremented
and the completion callback fires when it equals the total number of tracked
services. -/
def loadRecordsGoMongo (pings : List Sample) (readErr : String → Option DbErr)
    (total : Nat) : List String → LoadState → LoadState × Option DbErr
  | [], st => (st, none)
  | ip :: rest, st =>
    match readErr ip with
    | some e => (st, some e)
    | none =>
      let st1 := processServiceMongo pings ip st
      let st2 := { st1 with completedTasks := st1.completedTasks + 1 }
      let st3 :=
        if st2.completedTasks = total then { st2 with callbackFired := true } else st2
      loadRecordsGoMongo pings readErr total rest st3

/-- Entry point of the MongoDB `loadRecords` cycle over the full list of
tracked services. -/
def loadRecordsMongo (pings : List Sample) (records : List RecordRow)
    (readErr : String → Option DbErr) (regs : List String) : LoadState × Option DbErr :=
  loadRecordsGoMongo pings readErr regs.length regs (initLoadState records)

/-- Model of `INSERT IGNORE INTO players_record`: `ip` is the primary key, so the row
is appended only when no row for that ip exists yet. -/
def insertIgnoreRecord (records : List RecordRow) (r : RecordRow) : List RecordRow :=
  if (records.find? (fun x => x.ip = r.ip)).isSome then records else records ++ [r]

/-- One service of the MySQL `loadRecords` loop body: like the MongoDB one
but the legacy fallback is the MySQL query (with its hard-coded ip) and the
persist is `INSERT IGNORE`. -/
def processServiceMysql (pings : List Sample) (ip : String) (st : LoadState) : LoadState :=
  match getRecord st.records ip with
  | some r =>
    { st with assignments :=
        st.assignments ++ [(ip, ⟨r.playerCount, toSeconds r.timestamp⟩)] }
  | none =>
    let legacy := getRecordLegacyMysql pings ip
    let newPlayerCount := legacy.map (fun p => p.1)
    let newTimestamp := legacy.map (fun p => p.2)
    { st with
      assignments :=
        st.assignments ++ [(ip, ⟨newPlayerCount, toSeconds newTimestamp⟩)]
      records := insertIgnoreRecord st.records ⟨ip, newPlayerCount, newTimestamp⟩ }

/-- MySQL `Database.loadRecords`: a `forEach` over the tracked services. In
the source, `let completedTasks = 0` is declared but never incremented, and
`callback` is never invoked anywhere in the function body, so the final
state keeps `completedTasks = 0` and `callbackFired = false` while every
service still gets processed. -/
def loadRecordsMysql (pings : List Sample) (records : List RecordRow)
    (regs : List String) : LoadState :=
  regs.foldl (fun st ip => processServiceMysql pings ip st) (initLoadState records)

/-- C2 evaluated at a failing input: on the MySQL backend, a cycle over one
tracked service processes the service (one recordData assignment) yet leaves
the counter at 0 and never fires the completion callback, while the MongoDB
counter-based completion of the MongoDB backend fires after the same cycle. -/
theorem c2_mysql_completion_never_fires :
    (loadRecordsMysql [] [] ["a"]).callbackFired = false ∧
    (loadRecordsMysql [] [] ["a"]).completedTasks = 0 ∧
    (loadRecordsMysql [] [] ["a"]).assignments.length = 1 ∧
    (loadRecordsMongo [] [] (fun _ => none) ["a"]).1.callbackFired = true := by
  refine ⟨rfl, rfl, rfl, rfl⟩

/-- C5 counterexample: with an empty sample store and no existing record for
service "a", the legacy fallback finds nothing, yet the MongoDB cycle still
persists a record — the `players_record` store gains the row
("a", null, null) — while the claim says nothing is persisted in that case.
(The display record does get the no-data state.) -/
theorem c5_counterexample_insert_despite_empty_fallback :
    (loadRecordsMongo [] [] (fun _ => none) ["a"]).1.records =
      [⟨"a", none, none⟩] ∧
    (loadRecordsMongo [] [] (fun _ => none) ["a"]).1.assignments =
      [("a", ⟨none, none⟩)] := by
  refine ⟨rfl, rfl⟩

/-- C5 amended: when `getRecord` is absent, both backends invoke the record
insert unconditionally — with the playerCount/timestamp of the legacy fallback
when it found a sample, and with null playerCount and null timestamp when it
found nothing; in the latter case the display record is populated with the
explicit no-data state (null value, null timestamp). -/
theorem c5_absent_record_always_persists (pings : List Sample) (ip : String)
    (st : LoadState) (habs : getRecord st.records ip = none) :
    ((processServiceMongo pings ip st).records =
      st.records ++ [⟨ip, (getRecordLegacyMongo pings ip).map (fun s => s.playerCount),
        (getRecordLegacyMongo pings ip).map (fun s => s.timestamp)⟩]) ∧
    ((processServiceMysql pings ip st).records =
      insertIgnoreRecord st.records
        ⟨ip, (getRecordLegacyMysql pings ip).map (fun p => p.1),
         (getRecordLegacyMysql pings ip).map (fun p => p.2)⟩) ∧
    (getRecordLegacyMongo pings ip = none →
      (processServiceMongo pings ip st).records = st.records ++ [⟨ip, none, none⟩] ∧
      (processServiceMongo pings ip st).assignments =
        st.assignments ++ [(ip, ⟨none, none⟩)]) ∧
    (getRecordLegacyMysql pings ip = none →
      (processServiceMysql pings ip st).assignments =
        st.assignments ++ [(ip, ⟨none, none⟩)]) := by
  refine ⟨?_, ?_, ?_, ?_⟩
  · simp [processServiceMongo, habs]
  · simp [processServiceMysql, habs]
  · intro hleg
    simp [processServiceMongo, habs, hleg, toSeconds]
  · intro hleg
    simp [processServiceMysql, habs, hleg, toSeconds]

/-- C5 witness: the amended theorem applied at the empty store for service
"a": the record ("a", null, null) is persisted and the no-data display state
assigned. -/
theorem c5_absent_record_always_persists_witness :
    (processServiceMongo [] "a" (initLoadState [])).records =
      [] ++ [⟨"a", none, none⟩] ∧
    (processServiceMongo [] "a" (initLoadState [])).assignments =
      [] ++ [("a", ⟨none, none⟩)] :=
  (c5_absent_record_always_persists [] "a" (initLoadState []) rfl).2.2.1 rfl

lemma loadRecordsGoMongo_split (pings : List Sample) (readErr : String → Option DbErr)
    (total : Nat) (bad : String) (post : List String) (e : DbErr)
    (hbad : readErr bad = some e) : ∀ (pre : List String) (st : LoadState),
    (∀ ip ∈ pre, readErr ip = none) →
    loadRecordsGoMongo pings readErr total (pre ++ bad :: post) st =
      ((loadRecordsGoMongo pings readErr total pre st).1, some e) := by
  intro pre
  induction pre with
  | nil =>
    intro st _
    simp only [List.nil_append, loadRecordsGoMongo, hbad]
  | cons ip rest ih =>
    intro st hpre
    have hip : readErr ip = none := hpre ip (List.mem_cons_self ip rest)
    have hrest : ∀ q ∈ rest, readErr q = none :=
      fun q hq => hpre q (List.mem_cons_of_mem ip hq)
    simp only [List.cons_append, loadRecordsGoMongo, hip]
    exact ih _ hrest

/-- C10: the MongoDB record-refresh cycle is not atomic under failure: when
the store read fails for a service partway through, the error propagates out
of the cycle (stopping it before the later services), while the state —
including every `recordData` assignment already made for the earlier
services — is exactly the state after processing those earlier services,
with no rollback. -/
theorem c10_partial_failure_retains_state (pings : List Sample)
    (records : List RecordRow) (readErr : String → Option DbErr)
    (pre post : List String) (bad : String) (e : DbErr)
    (hpre : ∀ ip ∈ pre, readErr ip = none) (hbad : readErr bad = some e) :
    loadRecordsMongo pings records readErr (pre ++ bad :: post) =
      ((loadRecordsGoMongo pings readErr (pre ++ bad :: post).length pre
        (initLoadState records)).1, some e) :=
  loadRecordsGoMongo_split pings readErr (pre ++ bad :: post).length bad post e hbad
    pre (initLoadState records) hpre

/-- Concrete read-failure profile for the C10 witness: the store read fails
for service "b" and succeeds for every other service. -/
def c10ReadErr : String → Option DbErr :=
  fun ip => if ip = "b" then some DbErr.otherErr else none

/-- C10 witness: the theorem applied with services ["a", "b", "c"] where the
read for "b" fails: the cycle stops with the propagated error and the state
of the run equals the state after processing ["a"] alone. -/
theorem c10_partial_failure_retains_state_witness :
    loadRecordsMongo [] [] c10ReadErr ["a", "b", "c"] =
      ((loadRecordsGoMongo [] c10ReadErr 3 ["a"] (initLoadState [])).1,
        some DbErr.otherErr) :=
  c10_partial_failure_retains_state [] [] c10ReadErr ["a"] ["c"] "b" DbErr.otherErr
    (by intro ip hip; rcases List.mem_singleton.mp hip with rfl; rfl) rfl

/-! ## Schema setup (`ensureIndexes`, both backends) -/

/-- The statements issued by the MySQL `ensureIndexes`, in program order. -/
inductive SchemaStep where
  | createPingsTable
  | createRecordsTable
  | addIpHashColumn
  | backfillIpHashNested
  | backfillIpHashTop
  | dropIpIndex
  | createIpIndex
  | dropTimestampIndex
  | createTimestampIndex
deriving DecidableEq, Repr

/-- The named `handleError` closure of the MySQL `ensureIndexes`: on any
error it logs and rethrows, aborting the call. -/
def handleSchemaError (e : Option DbErr) : Except DbErr Unit :=
  match e with
  | some err => .error err
  | none => .ok ()

/-- The log-only error handlers of the MySQL `ensureIndexes`: the error is
logged and execution continues. -/
def logSchemaError (_e : Option DbErr) : Except DbErr Unit := .ok ()

/-- The index operations issued by the MongoDB `ensureIndexes`. -/
inductive MongoIndexOp where
  | pingsIpPlayerCount
  | pingsTimestamp
  | recordsIp
deriving DecidableEq, Repr

/-- MySQL `Database.ensureIndexes`, parameterized by the outcome of each
statement: the two `CREATE TABLE IF NOT EXISTS` statements, the top-level
`UPDATE pings SET ip_hash = ...` backfill, and the two `CREATE INDEX`
statements go through `handleError` (rethrow); the `ALTER TABLE ... ADD
COLUMN ip_hash` statement, the backfill nested in its callback, and the two
`DROP INDEX` statements only log their errors. -/
def ensureIndexesMysql (outcome : SchemaStep → Option DbErr) : Except DbErr Unit := do
  handleSchemaError (outcome .createPingsTable)
  handleSchemaError (outcome .createRecordsTable)
  logSchemaError (outcome .addIpHashColumn)
  logSchemaError (outcome .backfillIpHashNested)
  handleSchemaError (outcome .backfillIpHashTop)
  logSchemaError (outcome .dropIpIndex)
  handleSchemaError (outcome .createIpIndex)
  logSchemaError (outcome .dropTimestampIndex)
  handleSchemaError (outcome .createTimestampIndex)

/-- MongoDB `Database.ensureIndexes`: the three `createIndex` calls run in a
single `try` block whose `catch` logs and rethrows. -/
def ensureIndexesMongo (outcome : MongoIndexOp → Option DbErr) : Except DbErr Unit := do
  handleSchemaError (outcome .pingsIpPlayerCount)
  handleSchemaError (outcome .pingsTimestamp)
  handleSchemaError (outcome .recordsIp)

/-- Statement outcomes when every table and index already exists on the
MySQL backend: `CREATE TABLE IF NOT EXISTS` is a no-op, `ADD COLUMN` fails
with a duplicate-column error (the migration already ran), the backfills
succeed against the existing column, and `DROP INDEX` then `CREATE INDEX`
succeed against the existing structures. -/
def mysqlExistingStructuresOutcome : SchemaStep → Option DbErr
  | .addIpHashColumn => some .dupColumn
  | _ => none

/-- Outcomes of `createIndex` calls when every collection and index already exists on
the MongoDB backend: `createIndex` on an existing index is a no-op. -/
def mongoExistingStructuresOutcome : MongoIndexOp → Option DbErr := fun _ => none

/-- C6 counterexample: a failure of the `CREATE INDEX ip_index ON pings
(ip_hash, playerCount)` statement — the re-creation half of the rebuild-the-dependent-index
migration step (it fails e.g. when the `ip_hash` column was
never added) — goes through `handleError` and aborts the whole
`ensureIndexes` call instead of being logged and skipped. -/
theorem c6_counterexample_index_rebuild_aborts :
    ensureIndexesMysql
      (fun s => if s = SchemaStep.createIpIndex then some DbErr.otherErr else none) =
      Except.error DbErr.otherErr := by
  rfl

/-- C6 amended: `ensureSchema` succeeds on both backends when all structures
already exist (the duplicate-column failure of the re-run `ADD COLUMN`
migration included), and of the opportunistic migration steps only the
add-column step, the backfill nested in its callback, and the two index
drops are logged and skipped on failure — any failure of the top-level
backfill or of the index re-creation statements aborts the whole call. -/
theorem c6_ensure_schema_error_handling :
    ensureIndexesMysql mysqlExistingStructuresOutcome = Except.ok () ∧
    ensureIndexesMongo mongoExistingStructuresOutcome = Except.ok () ∧
    (∀ outcome : SchemaStep → Option DbErr,
      outcome .createPingsTable = none →
      outcome .createRecordsTable = none →
      outcome .backfillIpHashTop = none →
      outcome .createIpIndex = none →
      outcome .createTimestampIndex = none →
      ensureIndexesMysql outcome = Except.ok ()) ∧
    (∀ outcome : SchemaStep → Option DbErr, ∀ e : DbErr,
      outcome .createPingsTable = none →
      outcome .createRecordsTable = none →
      outcome .backfillIpHashTop = some e →
      ensureIndexesMysql outcome = Except.error e) := by
  refine ⟨rfl, rfl, ?_, ?_⟩
  · intro outcome h1 h2 h3 h4 h5
    simp [ensureIndexesMysql, handleSchemaError, logSchemaError, h1, h2, h3, h4, h5,
      Bind.bind, Except.bind]
  · intro outcome e h1 h2 h3
    simp [ensureIndexesMysql, handleSchemaError, logSchemaError, h1, h2, h3,
      Bind.bind, Except.bind]

/-- Statement outcomes where every log-only migration step fails and every
rethrowing statement succeeds. -/
def mysqlMigrationStepsFailOutcome : SchemaStep → Option DbErr
  | .addIpHashColumn => some .otherErr
  | .backfillIpHashNested => some .otherErr
  | .dropIpIndex => some .otherErr
  | .dropTimestampIndex => some .otherErr
  | _ => none

/-- C6 witness: the amended theorem applied to the outcome profile where all
four log-only migration steps fail — `ensureIndexes` still succeeds — and to
one where the top-level backfill fails — `ensureIndexes` aborts with it. -/
theorem c6_ensure_schema_error_handling_witness :
    ensureIndexesMysql mysqlMigrationStepsFailOutcome = Except.ok () ∧
    ensureIndexesMysql
      (fun s => if s = SchemaStep.backfillIpHashTop then some DbErr.otherErr else none) =
      Except.error DbErr.otherErr :=
  ⟨c6_ensure_schema_error_handling.2.2.1 mysqlMigrationStepsFailOutcome
      rfl rfl rfl rfl rfl,
   c6_ensure_schema_error_handling.2.2.2
      (fun s => if s = SchemaStep.backfillIpHashTop then some DbErr.otherErr else none)
      DbErr.otherErr rfl rfl rfl⟩
